import Mathlib

/-!
Verification development for the job-listing platform's application
submission pipeline.  The definitions below are shallow embeddings of the
JavaScript source: the scoring gateway (`atsScoring.service`), the email
dispatcher (`email.service`), the parser normalization
(`resumeParser.service` / `ats.controller.old`), and the application
orchestrator (`applyForJob` in `ats.controller`).  JavaScript async control
flow is modelled as sequential state passing; outcomes of external calls
(database, cloud upload, LLM, SMTP) are inputs of the model; thrown
exceptions are modelled with `Except`.
-/

/-- A JSON value, as produced by JavaScript's JSON.parse.  Numbers are
modelled as rationals. -/
inductive Json where
  | null
  | bool (b : Bool)
  | num (q : Rat)
  | str (s : String)
  | arr (elems : List Json)
  | obj (fields : List (String × Json))

/-- JavaScript truthiness of a JSON value. -/
def Json.truthy : Json → Bool
  | .null => false
  | .bool b => b
  | .num q => q ≠ 0
  | .str s => s ≠ ""
  | .arr _ => true
  | .obj _ => true

/-- Property access `j.k` on a parsed JSON value: a lookup when `j` is an
object, undefined (`none`) otherwise. -/
def jGet (j : Json) (k : String) : Option Json :=
  match j with
  | .obj fields => fields.lookup k
  | _ => none

/-- Optional-chained access `j.k1?.k2`. -/
def jGet2 (j : Json) (k1 k2 : String) : Option Json :=
  match jGet j k1 with
  | some v => jGet v k2
  | none => none

/-- Does the character list `hay` contain `pat` as a contiguous run?
Embeds JavaScript `hay.includes(pat)`. -/
def listIncludes (hay pat : List Char) : Bool :=
  match hay with
  | [] => pat.isEmpty
  | _ :: t => pat.isPrefixOf hay || listIncludes t pat

/-- JavaScript `hay.includes(pat)` on strings. -/
def strIncludes (hay pat : String) : Bool :=
  listIncludes hay.toList pat.toList

/-- JavaScript `s.toLowerCase()` (ASCII case mapping, which covers every
character the scoring keywords contain). -/
def strToLower (s : String) : String := String.mk (s.toList.map Char.toLower)

/-- JavaScript `s.trim()` over a character list. -/
def trimChars (cs : List Char) : List Char :=
  ((cs.dropWhile Char.isWhitespace).reverse.dropWhile Char.isWhitespace).reverse

/-- One global-regex deletion pass for a pattern of the form `pat` followed
by an optional newline, scanning left to right; `fuel` bounds recursion by
the input length. -/
def removeFenceAux : Nat → List Char → List Char → List Char
  | 0, _, _ => []
  | _ + 1, _, [] => []
  | fuel + 1, pat, c :: t =>
    if pat.isPrefixOf (c :: t) then
      let rest := (c :: t).drop pat.length
      removeFenceAux fuel pat (if rest.headD ' ' = '\n' then rest.tail else rest)
    else c :: removeFenceAux fuel pat t

/-- Deletes every occurrence of `pat` plus an optional trailing newline,
the behaviour of the global `replace` calls in `parseGeminiResponse`. -/
def removeFence (pat : String) (cs : List Char) : List Char :=
  removeFenceAux cs.length pat.toList cs

/-- JavaScript falsiness of an optional string (undefined or empty). -/
def strFalsy (o : Option String) : Bool := o.getD "" = ""

/-- Decimal digits to a natural number. -/
def digitsVal (ds : List Char) : Nat :=
  ds.foldl (fun a c => a * 10 + (c.toNat - 48)) 0

/-- Leading-digit parse used by the `parseInt` model: `none` when no digit
leads (JavaScript NaN). -/
def parseNatDigits (cs : List Char) : Option Nat :=
  let ds := cs.takeWhile Char.isDigit
  if ds.isEmpty then none else some (digitsVal ds)

/-- JavaScript `parseInt(s, 10)` on a trimmed string: optional sign then
leading digits; NaN is `none`. -/
def parseIntChars (cs : List Char) : Option Int :=
  match cs with
  | '-' :: rest => (parseNatDigits rest).map (fun n => -(n : Int))
  | '+' :: rest => (parseNatDigits rest).map (fun n => (n : Int))
  | _ => (parseNatDigits cs).map (fun n => (n : Int))

/-- Truncation toward zero, the behaviour of `parseInt` on a number. -/
def ratTrunc (q : Rat) : Int :=
  if 0 ≤ q then ⌊q⌋ else ⌈q⌉

/-- JavaScript `parseInt(x, 10)` applied to a JSON field (`none` both for a
missing field and for NaN).  String and number arguments are modelled;
JavaScript's string coercion of other values is not. -/
def parseIntJs (j : Option Json) : Option Int :=
  match j with
  | some (.num q) => some (ratTrunc q)
  | some (.str s) => parseIntChars s.trim.toList
  | _ => none

/-- Leading decimal-fraction parse for the `parseFloat` model. -/
def parseRatChars (cs : List Char) : Option Rat :=
  let signed : Bool := cs.headD ' ' = '-'
  let body := if cs.headD ' ' = '-' || cs.headD ' ' = '+' then cs.tail else cs
  let intPart := body.takeWhile Char.isDigit
  let rest := body.drop intPart.length
  let fracPart := if rest.headD ' ' = '.' then rest.tail.takeWhile Char.isDigit else []
  if intPart.isEmpty ∧ fracPart.isEmpty then none
  else
    let mag : Rat := (digitsVal intPart : Rat) + (digitsVal fracPart : Rat) / ((10 : Rat) ^ fracPart.length)
    some (if signed then -mag else mag)

/-- JavaScript `parseFloat(x)` applied to a JSON field. -/
def parseFloatJs (j : Option Json) : Option Rat :=
  match j with
  | some (.num q) => some q
  | some (.str s) => parseRatChars s.trim.toList
  | _ => none

/-- The scoring result object built by the scoring gateway.  Its fields are
exactly the snake_case properties of the JavaScript object literals in
`parseGeminiResponse` and `generateFallbackScore`. -/
structure ScoringResult where
  match_score : Int
  shortlist_probability : Rat
  salary_min : Int
  salary_max : Int
  missing_skills : List Json
  strong_skills : List Json
  recommendation : Json
  key_highlights : List Json
  areas_of_concern : List Json

/-- JavaScript property read `sr.key` on the scoring result object: the
object has exactly the snake_case own-properties listed here, so any other
key (in particular a camelCase one) reads as undefined (`none`). -/
def ScoringResult.get (sr : ScoringResult) (key : String) : Option Json :=
  if key = "match_score" then some (.num sr.match_score)
  else if key = "shortlist_probability" then some (.num sr.shortlist_probability)
  else if key = "salary_range" then
    some (.obj [("min", .num sr.salary_min), ("max", .num sr.salary_max)])
  else if key = "missing_skills" then some (.arr sr.missing_skills)
  else if key = "strong_skills" then some (.arr sr.strong_skills)
  else if key = "recommendation" then some sr.recommendation
  else if key = "key_highlights" then some (.arr sr.key_highlights)
  else if key = "areas_of_concern" then some (.arr sr.areas_of_concern)
  else none

/-- The fixed reference vocabulary of the fallback scorer
(`commonSkills` in `generateFallbackScore`). -/
def commonSkills : List String :=
  ["javascript", "python", "java", "react", "node.js", "sql", "aws",
   "docker", "kubernetes", "git", "agile", "rest api", "mongodb"]

/-- `Math.round(a / b)` for natural `a` and positive `b`: round half up. -/
def jsRound (a b : Nat) : Nat := (2 * a + b) / (2 * b)

/-- Embeds `generateFallbackScore(parsedResume, jobDescription)`.  The
parsed resume is represented by its JSON serialization
(`JSON.stringify(parsedResume)`), which is all this function inspects. -/
def generateFallbackScore (parsedResumeText jobDescription : String) : ScoringResult :=
  let resumeText := strToLower parsedResumeText
  let jobText := strToLower jobDescription
  let foundSkills := commonSkills.filter (fun s => strIncludes resumeText s && strIncludes jobText s)
  let missingSkills := commonSkills.filter (fun s => strIncludes jobText s && !strIncludes resumeText s)
  let jobSkillCount := (commonSkills.filter (fun s => strIncludes jobText s)).length
  let matchScore := min 100 (jsRound (foundSkills.length * 100) (max jobSkillCount 1))
  { match_score := (matchScore : Int)
    shortlist_probability := (matchScore : Rat) / 100
    salary_min := 60000
    salary_max := 100000
    missing_skills := (missingSkills.take 5).map Json.str
    strong_skills := (foundSkills.take 5).map Json.str
    recommendation := .str "Fallback scoring used - manual review recommended"
    key_highlights := [.str "Automated scoring unavailable"]
    areas_of_concern := [.str "LLM scoring service unavailable"] }

/-- The `cleanText.match` of a greedy `\x7b[\s\S]*\x7d` regular expression:
the span from the first opening brace to the last closing brace, when the
latter follows the former. -/
def extractBraced (cs : List Char) : Option String :=
  match cs.findIdx? (fun c => c = '{'), (cs.reverse.findIdx? (fun c => c = '}')) with
  | some i, some r =>
    let j := cs.length - 1 - r
    if i ≤ j then some (String.mk ((cs.drop i).take (j + 1 - i))) else none
  | _, _ => none

/-- Embeds `parseGeminiResponse(responseText)`.  `jsonParse` stands for
JavaScript's `JSON.parse`, returning `none` where it would throw.  Every
failure (empty text, no brace-delimited span, unparseable JSON) is thrown,
surfacing as the single wrapped error of the JavaScript function. -/
def parseGeminiResponse (jsonParse : String → Option Json) (responseText : String) :
    Except String ScoringResult :=
  if responseText = "" then .error "Invalid Gemini response format"
  else
    let cleanChars :=
      removeFence "```" (removeFence "```json" (trimChars responseText.toList))
    match extractBraced cleanChars with
    | none => .error "Invalid Gemini response format"
    | some jsonStr =>
      match jsonParse jsonStr with
      | none => .error "Invalid Gemini response format"
      | some parsed =>
        .ok { match_score := (parseIntJs (jGet parsed "match_score")).getD 0
              shortlist_probability := (parseFloatJs (jGet parsed "shortlist_probability")).getD 0
              salary_min := (parseIntJs (jGet2 parsed "salary_range" "min")).getD 0
              salary_max := (parseIntJs (jGet2 parsed "salary_range" "max")).getD 0
              missing_skills :=
                match jGet parsed "missing_skills" with
                | some (.arr xs) => xs
                | _ => []
              strong_skills :=
                match jGet parsed "strong_skills" with
                | some (.arr xs) => xs
                | _ => []
              recommendation :=
                match jGet parsed "recommendation" with
                | some v => if v.truthy then v else .str ""
                | none => .str ""
              key_highlights :=
                match jGet parsed "key_highlights" with
                | some (.arr xs) => xs
                | _ => []
              areas_of_concern :=
                match jGet parsed "areas_of_concern" with
                | some (.arr xs) => xs
                | _ => [] }

/-- The outcome of the external LLM call: either the upstream call threw
(missing reply, timeout, transport error, non-2xx) or a text reply came
back. -/
abbrev LLMOutcome := Except String String

/-- Embeds `calculateATSScore(parsedResume, jobDescription)`.  The
environment supplies the API key (absent or empty is falsy and throws
inside the try block), the LLM call outcome, and the `JSON.parse`
behaviour.  The JavaScript try/catch makes the function total: any failure
is caught and answered with the deterministic fallback score. -/
def calculateATSScore (jsonParse : String → Option Json) (apiKey : Option String)
    (llm : LLMOutcome) (parsedResumeText jobDescription : String) : ScoringResult :=
  if strFalsy apiKey then generateFallbackScore parsedResumeText jobDescription
  else
    match llm with
    | .error _ => generateFallbackScore parsedResumeText jobDescription
    | .ok text =>
      match parseGeminiResponse jsonParse text with
      | .ok r => r
      | .error _ => generateFallbackScore parsedResumeText jobDescription

/-- Result object of the email service functions
(`{sent, reason?, error?, messageId?}`). -/
structure EmailResult where
  sent : Bool
  reason : Option String
  errMsg : Option String
  messageId : Option String

/-- Outcome of one `sendEmail` transport call: a message id, or a thrown
transport error. -/
abbrev Transport := Except String String

/-- Embeds `sendHRNotification(data)`: a missing HR address short-circuits
to `{sent:false, reason}`; otherwise the transport outcome decides, and a
transport failure is re-thrown wrapped in a new error message. -/
def sendHRNotification (hrEmail : Option String) (transport : Transport) :
    Except String EmailResult :=
  if strFalsy hrEmail then
    .ok { sent := false, reason := some "HR email not provided", errMsg := none, messageId := none }
  else
    match transport with
    | .ok mid => .ok { sent := true, reason := none, errMsg := none, messageId := some mid }
    | .error e => .error ("Email notification failed: " ++ e)

/-- Embeds `sendCandidateConfirmation(candidateData)`: the recipient is
`candidateData.candidateEmail || candidateData.email`; a missing address
yields `{sent:false, reason}`, and a transport failure is caught and
yields `{sent:false, error}` — this function never throws. -/
def sendCandidateConfirmation (candidateEmail email : Option String) (transport : Transport) :
    Except String EmailResult :=
  let recipient := if strFalsy candidateEmail then email else candidateEmail
  if strFalsy recipient then
    .ok { sent := false, reason := some "No candidate email", errMsg := none, messageId := none }
  else
    match transport with
    | .ok mid => .ok { sent := true, reason := none, errMsg := none, messageId := some mid }
    | .error e => .ok { sent := false, reason := none, errMsg := some e, messageId := none }

/-- A job row as read by the orchestrator (`jobs` table). -/
structure Job where
  job_id : String
  title : String
  description : String
  status : String
  hr_email : Option String
  hr_name : Option String
  company_name : Option String

/-- Externally observable calls made during one `applyForJob` run, in
order.  A call that throws is still recorded as attempted. -/
inductive Event where
  | getJob
  | checkExisting
  | uploadFile
  | parseResume
  | createResume
  | scoringCall
  | createScore
  | hrNotifyCall
  | candidateConfirmCall
  | updateEmailSent (v : Bool)
  | unlinkFile
deriving DecidableEq

/-- The HTTP response of one `applyForJob` run. -/
structure AppData where
  applicationId : String
  resumeId : String
  jobId : String
  jobTitle : String
  matchScore : Option Json
  shortlistProbability : Option Json
  salaryRange : Option Json
  missingSkills : Option Json
  strongSkills : Option Json
  recommendation : Option Json
  keyHighlights : Option Json
  areasOfConcern : Option Json
  emailSent : Bool
  resumeUrl : String
  appliedAt : String

/-- Terminal HTTP outcome of one `applyForJob` run: an early validation
return (4xx), the catch-all 500, or the 201 success payload. -/
inductive HttpResult where
  | validationError (status : Nat) (msg : String)
  | serverError (msg : String)
  | created (d : AppData)

/-- Environment of one `applyForJob` run: the request inputs plus the
outcome of every external call the run may make. -/
structure ApplyEnv where
  hasFile : Bool
  filePath : String
  jobId : String
  userEmail : Option String
  userFullName : Option String
  now : String
  jobLookup : Except String (Option Job)
  existingApp : Except String Bool
  uploadRes : Except String String
  parseRes : Except String String
  createResumeRes : Except String String
  apiKey : Option String
  llm : LLMOutcome
  jsonParse : String → Option Json
  createScoreRes : Except String String
  hrTransport : Transport
  candTransport : Transport
  updateEmailRes : Except String Unit
  unlinkRes : Except String Unit

/-- Outcome of the notification phase (the inner try/catch of step 6):
the `emailSent` flag of the response, the calls attempted, and the final
value of the persisted score row's `email_sent` column (created `false`,
set `true` only by a successful `updateEmailSentStatus`). -/
structure EmailOutcome where
  emailSent : Bool
  events : List Event
  flagAfter : Bool

/-- Embeds step 6 of `applyForJob`: HR notification only when the match
score reaches 80; then candidate confirmation; then `emailSent` is set and
`updateEmailSentStatus` is attempted; any exception is caught, ending the
phase with whatever was already done. -/
def emailPhase (sr : ScoringResult) (hrEmail candidateEmail : Option String)
    (hrT candT : Transport) (updT : Except String Unit) : EmailOutcome :=
  let hrStep : Except String Unit × List Event :=
    if 80 ≤ sr.match_score then
      match sendHRNotification hrEmail hrT with
      | .ok _ => (.ok (), [.hrNotifyCall])
      | .error e => (.error e, [.hrNotifyCall])
    else (.ok (), [])
  match hrStep with
  | (.error _, evs) => { emailSent := false, events := evs, flagAfter := false }
  | (.ok _, evs) =>
    match sendCandidateConfirmation candidateEmail none candT with
    | .error _ =>
      { emailSent := false, events := evs ++ [.candidateConfirmCall], flagAfter := false }
    | .ok _ =>
      match updT with
      | .ok _ =>
        { emailSent := true
          events := evs ++ [.candidateConfirmCall, .updateEmailSent true]
          flagAfter := true }
      | .error _ =>
        { emailSent := true
          events := evs ++ [.candidateConfirmCall, .updateEmailSent true]
          flagAfter := false }

/-- Full observable outcome of one `applyForJob` run: the HTTP result, the
ordered external calls, and the persisted score row's `email_sent` value
(`none` when no score row was persisted). -/
structure RunOutput where
  result : HttpResult
  events : List Event
  scoreEmailFlag : Option Bool

/-- A thrown error reaching the catch block of `applyForJob`: the temp
file unlink is attempted (its own failure only logged) and a 500 is
returned. -/
def failWithCleanup (msg : String) (evs : List Event) (flag : Option Bool) : RunOutput :=
  { result := .serverError msg, events := evs ++ [.unlinkFile], scoreEmailFlag := flag }

/-- Embeds `applyForJob(req, res)` as a function of its environment.  The
early validation returns do not run the cleanup step; exceptions reach the
catch block, which attempts cleanup before responding 500. -/
def applyForJob (env : ApplyEnv) : RunOutput :=
  if !env.hasFile then
    { result := .validationError 400 "No resume file uploaded", events := [], scoreEmailFlag := none }
  else
    match env.jobLookup with
    | .error e => failWithCleanup e [.getJob] none
    | .ok none =>
      { result := .validationError 404 "Job not found", events := [.getJob], scoreEmailFlag := none }
    | .ok (some job) =>
      if job.status ≠ "active" then
        { result := .validationError 400 "This job is no longer accepting applications"
          events := [.getJob], scoreEmailFlag := none }
      else
        match env.existingApp with
        | .error e => failWithCleanup e [.getJob, .checkExisting] none
        | .ok true =>
          { result := .validationError 400 "You have already applied for this job"
            events := [.getJob, .checkExisting], scoreEmailFlag := none }
        | .ok false =>
          match env.uploadRes with
          | .error e => failWithCleanup e [.getJob, .checkExisting, .uploadFile] none
          | .ok resumeUrl =>
            match env.parseRes with
            | .error e => failWithCleanup e [.getJob, .checkExisting, .uploadFile, .parseResume] none
            | .ok parsedData =>
              match env.createResumeRes with
              | .error e =>
                failWithCleanup e [.getJob, .checkExisting, .uploadFile, .parseResume, .createResume] none
              | .ok resumeId =>
                let sr := calculateATSScore env.jsonParse env.apiKey env.llm parsedData job.description
                match env.createScoreRes with
                | .error e =>
                  failWithCleanup e
                    [.getJob, .checkExisting, .uploadFile, .parseResume, .createResume,
                     .scoringCall, .createScore] none
                | .ok scoreId =>
                  let eo := emailPhase sr job.hr_email env.userEmail
                    env.hrTransport env.candTransport env.updateEmailRes
                  { result := .created
                      { applicationId := scoreId
                        resumeId := resumeId
                        jobId := job.job_id
                        jobTitle := job.title
                        matchScore := sr.get "matchScore"
                        shortlistProbability := sr.get "shortlistProbability"
                        salaryRange := sr.get "salaryRange"
                        missingSkills := sr.get "missingSkills"
                        strongSkills := sr.get "strongSkills"
                        recommendation := sr.get "recommendation"
                        keyHighlights := sr.get "keyHighlights"
                        areasOfConcern := sr.get "areasOfConcern"
                        emailSent := eo.emailSent
                        resumeUrl := resumeUrl
                        appliedAt := env.now }
                    events :=
                      [.getJob, .checkExisting, .uploadFile, .parseResume, .createResume,
                       .scoringCall, .createScore] ++ eo.events ++ [.unlinkFile]
                    scoreEmailFlag := some eo.flagAfter }

/-- JavaScript `a || b || ...asFallbackChain || ""` over possibly-absent
strings: the first defined non-empty entry, else the empty string. -/
def firstTruthyStr : List (Option String) → String
  | [] => ""
  | none :: t => firstTruthyStr t
  | some s :: t => if s = "" then firstTruthyStr t else s

/-- The `skills` field of a raw parser payload: absent, an array, or a
nested object with `technical` and `soft` lists. -/
inductive SkillsField where
  | absent
  | arr (xs : List String)
  | nested (technical : Option (List String)) (soft : Option (List String))

/-- One raw experience entry of a parser payload, with every field-name
variant the normalizer probes for. -/
structure RawExp where
  title : Option String
  position : Option String
  company : Option String
  organization : Option String
  location : Option String
  start_date : Option String
  «from» : Option String
  end_date : Option String
  «to» : Option String
  description : Option String
  responsibilities : Option String
  duration : Option String

/-- One raw education entry of a parser payload. -/
structure RawEdu where
  degree : Option String
  qualification : Option String
  institution : Option String
  school : Option String
  university : Option String
  location : Option String
  graduation_date : Option String
  year : Option String
  gpa : Option String

/-- A raw upstream parser payload, with the alternative field-name
conventions the normalizer handles.  `social_links_linkedin` stands for
the optional-chained `social_links?.linkedin` read. -/
structure RawParserData where
  name : Option String
  full_name : Option String
  email : Option String
  phone : Option String
  phone_number : Option String
  location : Option String
  address : Option String
  linkedin : Option String
  social_links_linkedin : Option String
  portfolio : Option String
  website : Option String
  summary : Option String
  objective : Option String
  experience : Option (List RawExp)
  education : Option (List RawEdu)
  skills : SkillsField
  technical_skills : Option (List String)
  soft_skills : Option (List String)
  certifications : Option (List String)
  languages : Option (List String)
  total_experience : Option String
  years_of_experience : Option String

/-- The canonical `personalInfo` block of a normalized resume. -/
structure PersonalInfo where
  name : String
  email : String
  phone : String
  location : String
  linkedin : String
  portfolio : String

/-- One normalized experience entry. -/
structure NormExp where
  title : String
  company : String
  location : String
  startDate : String
  endDate : String
  description : String
  duration : String

/-- One normalized education entry. -/
structure NormEdu where
  degree : String
  institution : String
  location : String
  graduationDate : String
  gpa : String

/-- The normalized `skills` block: `all` keeps whatever `data.skills` held
(`[]` when absent), matching the JavaScript `data.skills || []`. -/
structure NormSkills where
  technical : List String
  soft : List String
  all : SkillsField

/-- The canonical resume shape produced by the normalizer. -/
structure NormalizedResume where
  personalInfo : PersonalInfo
  summary : String
  experience : List NormExp
  education : List NormEdu
  skills : NormSkills
  certifications : List String
  languages : List String
  totalExperience : String
  rawData : RawParserData

/-- Embeds `normalizeParserResponse(data)` from the resume parser service:
maps every known upstream field-name variant into the canonical shape,
defaulting absent fields to empty strings and arrays. -/
def normalizeParserResponse (data : RawParserData) : NormalizedResume :=
  { personalInfo :=
      { name := firstTruthyStr [data.name, data.full_name]
        email := firstTruthyStr [data.email]
        phone := firstTruthyStr [data.phone, data.phone_number]
        location := firstTruthyStr [data.location, data.address]
        linkedin := firstTruthyStr [data.linkedin, data.social_links_linkedin]
        portfolio := firstTruthyStr [data.portfolio, data.website] }
    summary := firstTruthyStr [data.summary, data.objective]
    experience :=
      match data.experience with
      | some exps => exps.map (fun exp =>
          { title := firstTruthyStr [exp.title, exp.position]
            company := firstTruthyStr [exp.company, exp.organization]
            location := firstTruthyStr [exp.location]
            startDate := firstTruthyStr [exp.start_date, exp.«from»]
            endDate := firstTruthyStr [exp.end_date, exp.«to»]
            description := firstTruthyStr [exp.description, exp.responsibilities]
            duration := firstTruthyStr [exp.duration] })
      | none => []
    education :=
      match data.education with
      | some edus => edus.map (fun edu =>
          { degree := firstTruthyStr [edu.degree, edu.qualification]
            institution := firstTruthyStr [edu.institution, edu.school, edu.university]
            location := firstTruthyStr [edu.location]
            graduationDate := firstTruthyStr [edu.graduation_date, edu.year]
            gpa := firstTruthyStr [edu.gpa] })
      | none => []
    skills :=
      { technical :=
          match data.skills with
          | .nested (some t) _ => t
          | _ => data.technical_skills.getD []
        soft :=
          match data.skills with
          | .nested _ (some s) => s
          | _ => data.soft_skills.getD []
        all :=
          match data.skills with
          | .absent => .arr []
          | s => s }
    certifications := data.certifications.getD []
    languages := data.languages.getD []
    totalExperience := firstTruthyStr [data.total_experience, data.years_of_experience]
    rawData := data }

/-- The success payload of an HTTP outcome, when there is one. -/
def HttpResult.dataOf : HttpResult → Option AppData
  | .created d => some d
  | _ => none

/-- The status code of an early validation return, when there is one. -/
def HttpResult.validationStatus : HttpResult → Option Nat
  | .validationError s _ => some s
  | _ => none

/-- The run output of the success path of `applyForJob`, named for reuse in
the lemmas below. -/
def successOutput (env : ApplyEnv) (j : Job) (u pd rid sid : String) : RunOutput :=
  let sr := calculateATSScore env.jsonParse env.apiKey env.llm pd j.description
  let eo := emailPhase sr j.hr_email env.userEmail env.hrTransport env.candTransport env.updateEmailRes
  { result := .created
      { applicationId := sid
        resumeId := rid
        jobId := j.job_id
        jobTitle := j.title
        matchScore := sr.get "matchScore"
        shortlistProbability := sr.get "shortlistProbability"
        salaryRange := sr.get "salaryRange"
        missingSkills := sr.get "missingSkills"
        strongSkills := sr.get "strongSkills"
        recommendation := sr.get "recommendation"
        keyHighlights := sr.get "keyHighlights"
        areasOfConcern := sr.get "areasOfConcern"
        emailSent := eo.emailSent
        resumeUrl := u
        appliedAt := env.now }
    events :=
      [.getJob, .checkExisting, .uploadFile, .parseResume, .createResume,
       .scoringCall, .createScore] ++ eo.events ++ [.unlinkFile]
    scoreEmailFlag := some eo.flagAfter }

/-- When every step up to and including the score insert succeeds, the run
takes the success path, whatever the notification transports do. -/
lemma applyForJob_ok (env : ApplyEnv) (j : Job) (u pd rid sid : String)
    (h1 : env.hasFile = true) (h2 : env.jobLookup = .ok (some j))
    (h3 : j.status = "active") (h4 : env.existingApp = .ok false)
    (h5 : env.uploadRes = .ok u) (h6 : env.parseRes = .ok pd)
    (h7 : env.createResumeRes = .ok rid) (h8 : env.createScoreRes = .ok sid) :
    applyForJob env = successOutput env j u pd rid sid := by
  simp only [applyForJob, h1, h2, h3, h4, h5, h6, h7, h8, successOutput,
    Bool.not_true, Bool.false_eq_true, if_false, ne_eq, not_true_eq_false, if_true]

/-- The candidate confirmation never throws: every failure is caught and
returned as a result value. -/
lemma sendCandidateConfirmation_total (ce em : Option String) (t : Transport) :
    ∃ r, sendCandidateConfirmation ce em t = .ok r := by
  simp only [sendCandidateConfirmation]
  repeat' split
  all_goals exact ⟨_, rfl⟩

/-- When the score reaches the threshold, the HR address is present, and
the HR transport throws, the notification phase ends at once: no candidate
confirmation, no flag update, `emailSent` still false. -/
lemma emailPhase_hrThrow (sr : ScoringResult) (he ce : Option String) (e : String)
    (candT : Transport) (updT : Except String Unit)
    (h80 : 80 ≤ sr.match_score) (hne : strFalsy he = false) :
    emailPhase sr he ce (.error e) candT updT =
      { emailSent := false, events := [.hrNotifyCall], flagAfter := false } := by
  simp only [emailPhase, sendHRNotification, hne, if_pos h80, Bool.false_eq_true, if_false]

/-- When the HR step does not throw (score below the threshold, missing HR
address, or transport success), the phase completes: `emailSent` is set and
the flag update is attempted. -/
lemma emailPhase_noThrow (sr : ScoringResult) (he ce : Option String)
    (hrT candT : Transport) (updT : Except String Unit)
    (h : sr.match_score < 80 ∨ strFalsy he = true ∨ ∃ mid, hrT = .ok mid) :
    (emailPhase sr he ce hrT candT updT).emailSent = true ∧
    (emailPhase sr he ce hrT candT updT).events =
      (if 80 ≤ sr.match_score then [Event.hrNotifyCall] else []) ++
        [.candidateConfirmCall, .updateEmailSent true] := by
  obtain ⟨r, hr⟩ := sendCandidateConfirmation_total ce none candT
  by_cases h80 : 80 ≤ sr.match_score
  · rcases h with hlow | hfal | ⟨mid, hmid⟩
    · exact absurd h80 (not_le.mpr hlow)
    · cases updT <;> simp [emailPhase, sendHRNotification, h80, hfal, hr]
    · subst hmid
      by_cases hfe : strFalsy he = true <;>
        cases updT <;> simp [emailPhase, sendHRNotification, h80, hfe, hr]
  · cases updT <;> simp [emailPhase, h80, hr]

/-- The HR notification is attempted only when the match score reaches the
threshold of 80. -/
lemma emailPhase_hrCall_ge (sr : ScoringResult) (he ce : Option String)
    (hrT candT : Transport) (updT : Except String Unit)
    (h : Event.hrNotifyCall ∈ (emailPhase sr he ce hrT candT updT).events) :
    80 ≤ sr.match_score := by
  by_contra hlt
  have h2 := (emailPhase_noThrow sr he ce hrT candT updT (Or.inl (not_le.mp hlt))).2
  rw [h2, if_neg hlt] at h
  simp at h

/-- A concrete active job posting used by the concrete runs below. -/
def sampleJob : Job :=
  { job_id := "JOB-1"
    title := "Backend Engineer"
    description := "We need javascript and sql experience"
    status := "active"
    hr_email := some "hr@example.com"
    hr_name := some "HR Team"
    company_name := some "Acme" }

/-- A concrete environment in which every pipeline step succeeds and the
scorer takes the fallback path (no API key configured). -/
def baseEnv : ApplyEnv :=
  { hasFile := true
    filePath := "/tmp/upload-1.pdf"
    jobId := "JOB-1"
    userEmail := some "cand@example.com"
    userFullName := some "Casey Candidate"
    now := "2026-10-11T00:00:00.000Z"
    jobLookup := .ok (some sampleJob)
    existingApp := .ok false
    uploadRes := .ok "https://cdn.example.com/resume.pdf"
    parseRes := .ok "parsed resume with javascript skills"
    createResumeRes := .ok "resume-1"
    apiKey := none
    llm := .error "timeout"
    jsonParse := fun _ => none
    createScoreRes := .ok "score-1"
    hrTransport := .ok "msg-hr"
    candTransport := .ok "msg-cand"
    updateEmailRes := .ok ()
    unlinkRes := .ok () }

/-- C1: the claim asserts that every successful run returns values for all
result fields, with `matchScore ∈ [0,100]` and `shortlistProbability ∈
[0,1]`.  The code contradicts it: the response is built by reading
camelCase properties off the snake_case scoring object, so on this
concrete successful (fallback-scored) run the fields `matchScore`,
`shortlistProbability`, `salaryRange`, `missingSkills`, `strongSkills`,
`keyHighlights` and `areasOfConcern` are all undefined; only
`recommendation` (same spelling in both conventions) carries its value,
which does flag fallback scoring. -/
theorem applyForJob_response_fields_undefined :
    ((applyForJob baseEnv).result.dataOf.map AppData.matchScore) = some none ∧
    ((applyForJob baseEnv).result.dataOf.map AppData.shortlistProbability) = some none ∧
    ((applyForJob baseEnv).result.dataOf.map AppData.salaryRange) = some none ∧
    ((applyForJob baseEnv).result.dataOf.map AppData.missingSkills) = some none ∧
    ((applyForJob baseEnv).result.dataOf.map AppData.strongSkills) = some none ∧
    ((applyForJob baseEnv).result.dataOf.map AppData.keyHighlights) = some none ∧
    ((applyForJob baseEnv).result.dataOf.map AppData.areasOfConcern) = some none ∧
    ((applyForJob baseEnv).result.dataOf.map AppData.recommendation) =
      some (some (.str "Fallback scoring used - manual review recommended")) :=
  ⟨rfl, rfl, rfl, rfl, rfl, rfl, rfl, rfl⟩

/-- C2: a validation failure (missing job, inactive job, or duplicate
application) returns a 4xx immediately; no upload, parser, scoring or
persistence call is made (the only calls are the job read and the
duplicate-check read) and no score row exists. -/
theorem validation_failure_no_side_effects (env : ApplyEnv)
    (hf : env.hasFile = true)
    (h : env.jobLookup = .ok none ∨
         (∃ j, env.jobLookup = .ok (some j) ∧ j.status ≠ "active") ∨
         (∃ j, env.jobLookup = .ok (some j) ∧ j.status = "active" ∧ env.existingApp = .ok true)) :
    (∃ s, (applyForJob env).result.validationStatus = some s ∧ 400 ≤ s ∧ s < 500) ∧
    (∀ ev ∈ (applyForJob env).events, ev = Event.getJob ∨ ev = Event.checkExisting) ∧
    (applyForJob env).scoreEmailFlag = none := by
  rcases h with h | ⟨j, hj, hs⟩ | ⟨j, hj, hs, hd⟩
  · have hrun : applyForJob env =
        { result := .validationError 404 "Job not found", events := [.getJob], scoreEmailFlag := none } := by
      simp [applyForJob, hf, h]
    rw [hrun]
    refine ⟨⟨404, rfl, by norm_num, by norm_num⟩, ?_, rfl⟩
    intro ev hev
    simp only [List.mem_singleton] at hev
    exact Or.inl hev
  · have hrun : applyForJob env =
        { result := .validationError 400 "This job is no longer accepting applications"
          events := [.getJob], scoreEmailFlag := none } := by
      simp [applyForJob, hf, hj, if_pos hs]
    rw [hrun]
    refine ⟨⟨400, rfl, by norm_num, by norm_num⟩, ?_, rfl⟩
    intro ev hev
    simp only [List.mem_singleton] at hev
    exact Or.inl hev
  · have hrun : applyForJob env =
        { result := .validationError 400 "You have already applied for this job"
          events := [.getJob, .checkExisting], scoreEmailFlag := none } := by
      simp [applyForJob, hf, hj, hs, hd]
    rw [hrun]
    refine ⟨⟨400, rfl, by norm_num, by norm_num⟩, ?_, rfl⟩
    intro ev hev
    rcases List.mem_pair.mp hev with h1 | h1
    · exact Or.inl h1
    · exact Or.inr h1

/-- Witness for C2 at a concrete environment whose job lookup finds no
job: the run answers 404 and persists no score row. -/
theorem validation_failure_no_side_effects_witness :
    (applyForJob { baseEnv with jobLookup := .ok none }).result.validationStatus = some 404 ∧
    (applyForJob { baseEnv with jobLookup := .ok none }).scoreEmailFlag = none :=
  have h := validation_failure_no_side_effects { baseEnv with jobLookup := .ok none } rfl (Or.inl rfl)
  ⟨rfl, h.2.2⟩

/-- C3: the scoring gateway never propagates a failure: whenever the API
key is missing, the upstream LLM call throws (timeout, transport error,
non-2xx, missing reply), or the reply yields no parseable JSON object,
`calculateATSScore` answers with the deterministic fallback verdict. -/
theorem calculateATSScore_falls_back (jsonParse : String → Option Json)
    (apiKey : Option String) (llm : LLMOutcome) (rt jd : String)
    (h : strFalsy apiKey = true ∨ (∃ e, llm = .error e) ∨
         (∃ t msg, llm = .ok t ∧ parseGeminiResponse jsonParse t = .error msg)) :
    calculateATSScore jsonParse apiKey llm rt jd = generateFallbackScore rt jd := by
  rcases h with h | ⟨e, he⟩ | ⟨t, msg, ht, hp⟩
  · simp [calculateATSScore, h]
  · subst he
    by_cases hak : strFalsy apiKey <;> simp [calculateATSScore, hak]
  · subst ht
    by_cases hak : strFalsy apiKey <;> simp [calculateATSScore, hak, hp]

/-- Witness for C3: an LLM reply with no brace-delimited JSON object is
scored by the fallback scorer. -/
theorem calculateATSScore_falls_back_witness :
    calculateATSScore (fun _ => none) (some "key") (.ok "hello gemini")
      "resume text" "job text" = generateFallbackScore "resume text" "job text" :=
  calculateATSScore_falls_back (fun _ => none) (some "key") (.ok "hello gemini")
    "resume text" "job text" (Or.inr (Or.inr ⟨"hello gemini", "Invalid Gemini response format", rfl, rfl⟩))

/-- C5 counterexample: a run that ends in the terminal failed outcome via
a validation failure (job not found) surfaces its 404 without ever
attempting deletion of the local temporary upload file. -/
theorem validation_failure_skips_cleanup :
    (applyForJob { baseEnv with jobLookup := .ok none }).result.validationStatus = some 404 ∧
    Event.unlinkFile ∉ (applyForJob { baseEnv with jobLookup := .ok none }).events := by
  constructor
  · rfl
  · decide

/-- C5 amended: every run that fails by raising an exception (upload,
parsing, persistence, or any other thrown error reaching the handler)
attempts local temp-file deletion as its last action before the 500 error
is surfaced; the early validation returns do not attempt cleanup. -/
theorem thrown_failure_cleans_up (env : ApplyEnv) (m : String)
    (h : (applyForJob env).result = .serverError m) :
    (applyForJob env).events.getLast? = some Event.unlinkFile := by
  revert h
  unfold applyForJob
  repeat' split
  all_goals intro h
  all_goals try cases h
  all_goals rfl

/-- Witness for C5 amended: a run whose cloud upload throws cleans up the
temp file last. -/
theorem thrown_failure_cleans_up_witness :
    (applyForJob { baseEnv with uploadRes := .error "upload failed" }).events.getLast? =
      some Event.unlinkFile :=
  thrown_failure_cleans_up { baseEnv with uploadRes := .error "upload failed" } "upload failed" rfl

/-- A text mentioning six vocabulary skills, used as both the serialized
resume and the job description. -/
def cexSkillsText : String := "javascript python java react node.js sql"

/-- C4 counterexample: with six vocabulary skills present in both texts,
"sql" appears in both the resume text and the job text yet is not
classified as strong — the returned lists are truncated to the first five
matches, so "classified as strong exactly when present in both" fails. -/
theorem fallback_strong_skills_truncated :
    strIncludes (strToLower cexSkillsText) "sql" = true ∧
    (generateFallbackScore cexSkillsText cexSkillsText).strong_skills =
      [.str "javascript", .str "python", .str "java", .str "react", .str "node.js"] ∧
    Json.str "sql" ∉ (generateFallbackScore cexSkillsText cexSkillsText).strong_skills := by
  refine ⟨rfl, rfl, ?_⟩
  have h : (generateFallbackScore cexSkillsText cexSkillsText).strong_skills =
      [.str "javascript", .str "python", .str "java", .str "react", .str "node.js"] := rfl
  rw [h]
  simp

/-- C4 amended: the fallback scorer filters its fixed vocabulary with
substring tests against the lowercased texts, but returns only the first
five strong and first five missing skills; the match score is the rounded
value of (matched-count ÷ max(job-mentioned-count, 1)) × 100 clamped to
[0,100]; the shortlist probability is the match score ÷ 100, in [0,1];
and the salary band is the fixed 60000–100000 placeholder. -/
theorem generateFallbackScore_spec (rt jd : String) :
    (generateFallbackScore rt jd).strong_skills =
      ((commonSkills.filter (fun s =>
        strIncludes (strToLower rt) s && strIncludes (strToLower jd) s)).take 5).map Json.str ∧
    (generateFallbackScore rt jd).missing_skills =
      ((commonSkills.filter (fun s =>
        strIncludes (strToLower jd) s && !strIncludes (strToLower rt) s)).take 5).map Json.str ∧
    (generateFallbackScore rt jd).match_score =
      ((min 100 (jsRound
        ((commonSkills.filter (fun s =>
          strIncludes (strToLower rt) s && strIncludes (strToLower jd) s)).length * 100)
        (max (commonSkills.filter (fun s => strIncludes (strToLower jd) s)).length 1)) : Nat) : Int) ∧
    0 ≤ (generateFallbackScore rt jd).match_score ∧
    (generateFallbackScore rt jd).match_score ≤ 100 ∧
    (generateFallbackScore rt jd).shortlist_probability =
      ((generateFallbackScore rt jd).match_score : Rat) / 100 ∧
    0 ≤ (generateFallbackScore rt jd).shortlist_probability ∧
    (generateFallbackScore rt jd).shortlist_probability ≤ 1 ∧
    (generateFallbackScore rt jd).salary_min = 60000 ∧
    (generateFallbackScore rt jd).salary_max = 100000 := by
  simp only [generateFallbackScore]
  refine ⟨by trivial, by trivial, by trivial, ?_, ?_, ?_, ?_, ?_, by trivial, by trivial⟩
  · exact Int.natCast_nonneg _
  · exact_mod_cast min_le_left 100 _
  · push_cast
    ring
  · positivity
  · rw [div_le_one (by norm_num : (0:Rat) < 100)]
    exact_mod_cast min_le_left 100 _

/-- C6 counterexample: a transport failure inside `sendHRNotification` is
re-thrown as a wrapped exception rather than reported as a
`{sent:false, reason}` result. -/
theorem sendHRNotification_throws_on_transport_error :
    sendHRNotification (some "hr@example.com") (.error "connection timeout") =
      .error "Email notification failed: connection timeout" := rfl

/-- C6 amended: `sendCandidateConfirmation` never throws and reports every
transport failure (and a missing address) as a `sent:false` result, while
`sendHRNotification` reports `sent:false` only for a missing recipient
address and re-throws transport failures as exceptions. -/
theorem email_service_failure_reporting :
    (∀ (ce em : Option String) (t : Transport), ∃ r, sendCandidateConfirmation ce em t = .ok r) ∧
    (∀ (ce em : Option String) (e : String) (r : EmailResult),
      sendCandidateConfirmation ce em (.error e) = .ok r → r.sent = false) ∧
    (∀ (he : Option String) (t : Transport), strFalsy he = true →
      sendHRNotification he t =
        .ok { sent := false, reason := some "HR email not provided", errMsg := none, messageId := none }) ∧
    (∀ (he : Option String) (e : String), strFalsy he = false →
      sendHRNotification he (.error e) = .error ("Email notification failed: " ++ e)) := by
  refine ⟨sendCandidateConfirmation_total, ?_, ?_, ?_⟩
  · intro ce em e r h
    simp only [sendCandidateConfirmation] at h
    repeat' split at h
    all_goals cases h
    all_goals rfl
  · intro he t hf
    simp [sendHRNotification, hf]
  · intro he e hf
    simp [sendHRNotification, hf]

/-- Witness for C6 amended at concrete inputs: a missing HR address, an HR
transport failure, and a caught candidate transport failure. -/
theorem email_service_failure_reporting_witness :
    sendHRNotification none (.ok "mid-1") =
      .ok { sent := false, reason := some "HR email not provided", errMsg := none, messageId := none } ∧
    sendHRNotification (some "hr@example.org") (.error "relay down") =
      .error ("Email notification failed: " ++ "relay down") ∧
    ({ sent := false, reason := none, errMsg := some "relay down", messageId := none } : EmailResult).sent = false :=
  ⟨email_service_failure_reporting.2.2.1 none (.ok "mid-1") rfl,
   email_service_failure_reporting.2.2.2 (some "hr@example.org") "relay down" rfl,
   email_service_failure_reporting.2.1 (some "cand@example.org") none "relay down"
     { sent := false, reason := none, errMsg := some "relay down", messageId := none } rfl⟩

/-- A concrete successful run in which the candidate-confirmation
transport fails (the dispatcher catches it internally). -/
def candFailEnv : ApplyEnv := { baseEnv with candTransport := .error "smtp relay down" }

/-- A concrete run with a high-scoring resume (fallback score 100) whose
HR notification transport throws. -/
def hrFailEnv : ApplyEnv :=
  { baseEnv with parseRes := .ok "javascript and sql developer", hrTransport := .error "smtp down" }

/-- C7 counterexample: when the candidate-confirmation send fails by
transport error, the failure is swallowed inside the dispatcher, and the
run — with resume and score records persisted — still returns success but
with `emailSent = true`, not the `emailSent:false` the claim requires. -/
theorem candidate_failure_still_reports_emailSent_true :
    (applyForJob candFailEnv).result.dataOf.map AppData.emailSent = some true ∧
    Event.createResume ∈ (applyForJob candFailEnv).events ∧
    Event.createScore ∈ (applyForJob candFailEnv).events := by
  refine ⟨rfl, ?_, ?_⟩ <;> decide

/-- C7 amended: under a successful pipeline the run always returns the
201 success result whatever the notification transports do, and a
notification failure that reaches the orchestrator as an exception (HR
transport failure at score ≥ 80 with a configured HR address) is reflected
as `emailSent:false`; a candidate-confirmation transport failure, caught
inside the dispatcher, instead yields `emailSent:true`. -/
theorem notification_failure_never_fails_run (env : ApplyEnv) (j : Job) (u pd rid sid : String)
    (h1 : env.hasFile = true) (h2 : env.jobLookup = .ok (some j)) (h3 : j.status = "active")
    (h4 : env.existingApp = .ok false) (h5 : env.uploadRes = .ok u) (h6 : env.parseRes = .ok pd)
    (h7 : env.createResumeRes = .ok rid) (h8 : env.createScoreRes = .ok sid) :
    ((applyForJob env).result.dataOf.map AppData.emailSent).isSome = true ∧
    (∀ e, env.hrTransport = .error e →
      80 ≤ (calculateATSScore env.jsonParse env.apiKey env.llm pd j.description).match_score →
      strFalsy j.hr_email = false →
      (applyForJob env).result.dataOf.map AppData.emailSent = some false) := by
  rw [applyForJob_ok env j u pd rid sid h1 h2 h3 h4 h5 h6 h7 h8]
  constructor
  · rfl
  · intro e he h80 hfe
    simp only [successOutput, HttpResult.dataOf, he, Option.map_some]
    rw [emailPhase_hrThrow _ _ _ _ _ _ h80 hfe]
    rfl

/-- Witness for C7 amended: the concrete high-score run with a throwing HR
transport returns success with `emailSent = false`. -/
theorem notification_failure_never_fails_run_witness :
    ((applyForJob hrFailEnv).result.dataOf.map AppData.emailSent).isSome = true ∧
    (applyForJob hrFailEnv).result.dataOf.map AppData.emailSent = some false :=
  have h := notification_failure_never_fails_run hrFailEnv sampleJob
    "https://cdn.example.com/resume.pdf" "javascript and sql developer" "resume-1" "score-1"
    rfl rfl rfl rfl rfl rfl rfl rfl
  ⟨h.1, h.2 "smtp down" rfl (by decide) rfl⟩

/-- C8 counterexample: a successful run whose computed match score is
below 80 (no HR notification) still returns `emailSent = true` once the
candidate confirmation completes, refuting "emailSent:true only if
matchScore ≥ 80". -/
theorem low_score_run_emailSent_true :
    (calculateATSScore baseEnv.jsonParse baseEnv.apiKey baseEnv.llm
      "parsed resume with javascript skills" sampleJob.description).match_score < 80 ∧
    (applyForJob baseEnv).result.dataOf.map AppData.emailSent = some true := by
  exact ⟨by decide, rfl⟩

/-- C8 amended: in every successful run the HR notification is invoked
only when the computed match score is ≥ 80 (as claimed), but `emailSent`
is true whenever the notification phase completes without an exception,
irrespective of the score: in particular every successful run with score
< 80 reports `emailSent = true`. -/
theorem hr_notification_threshold (env : ApplyEnv) (j : Job) (u pd rid sid : String)
    (h1 : env.hasFile = true) (h2 : env.jobLookup = .ok (some j)) (h3 : j.status = "active")
    (h4 : env.existingApp = .ok false) (h5 : env.uploadRes = .ok u) (h6 : env.parseRes = .ok pd)
    (h7 : env.createResumeRes = .ok rid) (h8 : env.createScoreRes = .ok sid) :
    (Event.hrNotifyCall ∈ (applyForJob env).events →
      80 ≤ (calculateATSScore env.jsonParse env.apiKey env.llm pd j.description).match_score) ∧
    ((calculateATSScore env.jsonParse env.apiKey env.llm pd j.description).match_score < 80 →
      (applyForJob env).result.dataOf.map AppData.emailSent = some true) := by
  rw [applyForJob_ok env j u pd rid sid h1 h2 h3 h4 h5 h6 h7 h8]
  constructor
  · intro hmem
    simp only [successOutput, List.mem_append, List.mem_cons, List.not_mem_nil] at hmem
    rcases hmem with (h | h) | h
    · simp at h
    · exact emailPhase_hrCall_ge _ _ _ _ _ _ h
    · simp at h
  · intro hlow
    have hp := emailPhase_noThrow
      (calculateATSScore env.jsonParse env.apiKey env.llm pd j.description)
      j.hr_email env.userEmail env.hrTransport env.candTransport env.updateEmailRes (Or.inl hlow)
    simp only [successOutput, HttpResult.dataOf, Option.map_some, hp.1]
    rfl

/-- Witness for C8 amended: the concrete low-score run reports
`emailSent = true`. -/
theorem hr_notification_threshold_witness :
    (applyForJob baseEnv).result.dataOf.map AppData.emailSent = some true :=
  (hr_notification_threshold baseEnv sampleJob "https://cdn.example.com/resume.pdf"
    "parsed resume with javascript skills" "resume-1" "score-1"
    rfl rfl rfl rfl rfl rfl rfl rfl).2 (by decide)

/-- C9: two upstream parser payloads identical except for the field-name
convention carrying the candidate name (`name` versus `full_name`)
normalize to identical `personalInfo.name` values. -/
theorem normalize_name_convention_invariant (d : RawParserData) (v : Option String) :
    (normalizeParserResponse { d with name := v, full_name := none }).personalInfo.name =
    (normalizeParserResponse { d with name := none, full_name := v }).personalInfo.name := by
  cases v with
  | none => rfl
  | some s =>
    by_cases h : s = "" <;> simp [normalizeParserResponse, firstTruthyStr, h]

/-- C10: in a successful run with match score ≥ 80, a configured HR
address, and a throwing HR transport, the candidate confirmation is never
attempted, the `email_sent` flag update is never called (so the persisted
score row keeps its creation-time value `false`), and the run still
returns success with `emailSent = false`. -/
theorem hr_failure_suppresses_candidate_email (env : ApplyEnv) (j : Job) (u pd rid sid e : String)
    (h1 : env.hasFile = true) (h2 : env.jobLookup = .ok (some j)) (h3 : j.status = "active")
    (h4 : env.existingApp = .ok false) (h5 : env.uploadRes = .ok u) (h6 : env.parseRes = .ok pd)
    (h7 : env.createResumeRes = .ok rid) (h8 : env.createScoreRes = .ok sid)
    (he : env.hrTransport = .error e)
    (h80 : 80 ≤ (calculateATSScore env.jsonParse env.apiKey env.llm pd j.description).match_score)
    (hfe : strFalsy j.hr_email = false) :
    (applyForJob env).result.dataOf.map AppData.emailSent = some false ∧
    Event.candidateConfirmCall ∉ (applyForJob env).events ∧
    (∀ b, Event.updateEmailSent b ∉ (applyForJob env).events) ∧
    (applyForJob env).scoreEmailFlag = some false := by
  rw [applyForJob_ok env j u pd rid sid h1 h2 h3 h4 h5 h6 h7 h8]
  simp only [successOutput, HttpResult.dataOf, he, Option.map_some]
  rw [emailPhase_hrThrow _ _ _ _ _ _ h80 hfe]
  refine ⟨rfl, ?_, ?_, rfl⟩
  · decide
  · intro b
    simp

/-- Witness for C10 at the concrete high-score run with a throwing HR
transport. -/
theorem hr_failure_suppresses_candidate_email_witness :
    (applyForJob hrFailEnv).result.dataOf.map AppData.emailSent = some false ∧
    Event.candidateConfirmCall ∉ (applyForJob hrFailEnv).events ∧
    (applyForJob hrFailEnv).scoreEmailFlag = some false :=
  have h := hr_failure_suppresses_candidate_email hrFailEnv sampleJob
    "https://cdn.example.com/resume.pdf" "javascript and sql developer" "resume-1" "score-1" "smtp down"
    rfl rfl rfl rfl rfl rfl rfl rfl rfl (by decide) rfl
  ⟨h.1, h.2.1, h.2.2.2⟩
